import Mathlib

/-!
Verification of the audio delta pipeline of the Simli GPT-4o realtime console
(`src/pages/ConsolePage.tsx`): the linear-interpolation resampler, the
channel-readiness gate, the pending audio buffer with drain-on-open, and the
turn-control handlers (`startRecording`, `connectConversation`, the
`conversation.updated` and `conversation.interrupted` handlers).

Numbers are modelled exactly: sample rates as rationals, PCM16 samples as
integers with explicit wrapping where the code stores into an `Int16Array`.
`Math.round x` is `⌊x + 1/2⌋` (JavaScript rounds half toward +infinity).
-/

namespace SimliConsole

/-- JavaScript `Math.round`: round half toward positive infinity. -/
def jsRound (q : ℚ) : ℚ := (⌊q + 1/2⌋ : ℤ)

/-- `Math.round` returning the integer itself. -/
def jsRoundZ (q : ℚ) : ℤ := ⌊q + 1/2⌋

/-- Storing a numeric value into an `Int16Array` slot: JavaScript `ToInt16`,
i.e. truncate toward zero, then wrap into the signed 16-bit range. -/
def toInt16 (q : ℚ) : ℤ :=
  ((if 0 ≤ q then ⌊q⌋ else ⌈q⌉) + 32768).emod 65536 - 32768

/-- Reading `inputData[j]` from an `Int16Array` at an integer index, as a
rational for the interpolation arithmetic. Out-of-range reads never occur in
the proofs below; the default value 0 stands for JavaScript's
`undefined`-propagated-to-0 store. -/
def readSample (l : List ℤ) (j : ℤ) : ℚ :=
  if 0 ≤ j then ((l.getD j.toNat 0 : ℤ) : ℚ) else 0

/-- `const outputLength = Math.round(inputData.length / sampleRateRatio)`
with `sampleRateRatio = inputSampleRate / outputSampleRate`. -/
def outputLength (len : ℕ) (inputSampleRate outputSampleRate : ℚ) : ℤ :=
  jsRoundZ ((len : ℚ) / (inputSampleRate / outputSampleRate))

/-- `const sourceIndex = i * sampleRateRatio`. -/
def sourceIndex (inputSampleRate outputSampleRate : ℚ) (i : ℕ) : ℚ :=
  (i : ℚ) * (inputSampleRate / outputSampleRate)

/-- `const lowerIndex = Math.floor(sourceIndex)`. -/
def lowerIndex (inputSampleRate outputSampleRate : ℚ) (i : ℕ) : ℤ :=
  ⌊sourceIndex inputSampleRate outputSampleRate i⌋

/-- `const upperIndex = Math.min(lowerIndex + 1, inputData.length - 1)`. -/
def upperIndex (len : ℕ) (inputSampleRate outputSampleRate : ℚ) (i : ℕ) : ℤ :=
  min (lowerIndex inputSampleRate outputSampleRate i + 1) ((len : ℤ) - 1)

/-- The resampler of `ConsolePage.tsx` lines 22-42: linear interpolation
between the two nearest input samples at each fractional source position.
The loop body computes
`(1 - interpolation) * inputData[lowerIndex] + interpolation * inputData[upperIndex]`
with `interpolation = sourceIndex - lowerIndex`, stored into an `Int16Array`. -/
def resampleAudioData (inputData : List ℤ)
    (inputSampleRate outputSampleRate : ℚ) : List ℤ :=
  (List.range (outputLength inputData.length inputSampleRate outputSampleRate).toNat).map
    (fun i =>
      let lo := lowerIndex inputSampleRate outputSampleRate i
      let hi := upperIndex inputData.length inputSampleRate outputSampleRate i
      let t := sourceIndex inputSampleRate outputSampleRate i - (lo : ℚ)
      toInt16 ((1 - t) * readSample inputData lo + t * readSample inputData hi))

/-! ### Resampler lemmas -/

lemma jsRoundZ_nonneg {q : ℚ} (h : 0 ≤ q) : 0 ≤ jsRoundZ q := by
  unfold jsRoundZ
  have : (0 : ℚ) ≤ q + 1/2 := by linarith
  exact Int.le_floor.mpr (by exact_mod_cast this)

lemma resampleAudioData_length_toNat (input : List ℤ) (inRate outRate : ℚ) :
    (resampleAudioData input inRate outRate).length
      = (outputLength input.length inRate outRate).toNat := by
  unfold resampleAudioData
  simp

lemma outputLength_eq (len : ℕ) (inRate outRate : ℚ) :
    outputLength len inRate outRate = jsRoundZ ((len : ℚ) * outRate / inRate) := by
  unfold outputLength
  rw [div_div_eq_mul_div]

lemma resample_length_eq (input : List ℤ) (inRate outRate : ℚ)
    (h1 : 0 < inRate) (h2 : 0 < outRate) :
    ((resampleAudioData input inRate outRate).length : ℤ)
      = jsRoundZ ((input.length : ℚ) * outRate / inRate) := by
  rw [resampleAudioData_length_toNat, outputLength_eq]
  have hq : (0 : ℚ) ≤ (input.length : ℚ) * outRate / inRate := by positivity
  have := jsRoundZ_nonneg hq
  omega

/-- If `i` is a loop index of the resampler (`i < outputLength`), the
fractional source position `i * sampleRateRatio` is strictly below the
input length. -/
lemma sourceIndex_lt_len (len : ℕ) (inRate outRate : ℚ)
    (h1 : 0 < inRate) (h2 : 0 < outRate)
    {i : ℕ} (hi : i < (outputLength len inRate outRate).toNat) :
    sourceIndex inRate outRate i < (len : ℚ) := by
  have hr : 0 < inRate / outRate := div_pos h1 h2
  have hiz : (i : ℤ) < outputLength len inRate outRate := by omega
  have hfl : ((outputLength len inRate outRate : ℤ) : ℚ)
      ≤ (len : ℚ) / (inRate / outRate) + 1/2 := by
    unfold outputLength jsRoundZ
    exact Int.floor_le _
  have hig : (i : ℚ) + 1 ≤ ((outputLength len inRate outRate : ℤ) : ℚ) := by
    exact_mod_cast hiz
  have hlt : (i : ℚ) < (len : ℚ) / (inRate / outRate) := by linarith
  have := mul_lt_mul_of_pos_right hlt hr
  rwa [div_mul_cancel₀ _ (ne_of_gt hr)] at this

lemma lowerIndex_nonneg (inRate outRate : ℚ)
    (h1 : 0 ≤ inRate) (h2 : 0 ≤ outRate) (i : ℕ) :
    0 ≤ lowerIndex inRate outRate i := by
  unfold lowerIndex sourceIndex
  have : (0 : ℚ) ≤ (i : ℚ) * (inRate / outRate) := by positivity
  exact Int.le_floor.mpr (by exact_mod_cast this)

lemma lowerIndex_lt_len (len : ℕ) (inRate outRate : ℚ)
    (h1 : 0 < inRate) (h2 : 0 < outRate)
    {i : ℕ} (hi : i < (outputLength len inRate outRate).toNat) :
    lowerIndex inRate outRate i < (len : ℤ) := by
  unfold lowerIndex
  exact Int.floor_lt.mpr (by exact_mod_cast sourceIndex_lt_len len inRate outRate h1 h2 hi)

/-- C1 helper: `Math.round(480 * 16000 / 24000) = 320`. -/
lemma jsRoundZ_480 : jsRoundZ (((480 : ℕ) : ℚ) * 16000 / 24000) = 320 := by
  unfold jsRoundZ
  push_cast
  norm_num [Int.floor_eq_iff]

/-- C1: for positive rates the output length is
`round(inputLength * outputRate / inputRate)`, and 480 samples resampled
from 24000 Hz to 16000 Hz give exactly 320 samples. -/
theorem resampleAudioData_output_length (input : List ℤ) (inRate outRate : ℚ)
    (h1 : 0 < inRate) (h2 : 0 < outRate) :
    ((resampleAudioData input inRate outRate).length : ℤ)
        = jsRoundZ ((input.length : ℚ) * outRate / inRate)
      ∧ (resampleAudioData (List.replicate 480 0) 24000 16000).length = 320 := by
  refine ⟨resample_length_eq input inRate outRate h1 h2, ?_⟩
  have h := resample_length_eq (List.replicate 480 0) 24000 16000
    (by norm_num) (by norm_num)
  rw [List.length_replicate] at h
  rw [jsRoundZ_480] at h
  omega

/-- C1 witness at a concrete input. -/
theorem resampleAudioData_output_length_witness :
    (0 : ℚ) < 24000 ∧ (0 : ℚ) < 16000 ∧
      (((resampleAudioData [1, 2, 3] 24000 16000).length : ℤ)
          = jsRoundZ ((List.length [1, 2, 3] : ℚ) * 16000 / 24000)
        ∧ (resampleAudioData (List.replicate 480 0) 24000 16000).length = 320) :=
  ⟨by norm_num, by norm_num,
    resampleAudioData_output_length [1, 2, 3] 24000 16000 (by norm_num) (by norm_num)⟩

lemma toInt16_intCast (x : ℤ) (hlo : -32768 ≤ x) (hhi : x ≤ 32767) :
    toInt16 (x : ℚ) = x := by
  unfold toInt16
  have htr : (if (0 : ℚ) ≤ (x : ℚ) then ⌊(x : ℚ)⌋ else ⌈(x : ℚ)⌉) = x := by
    split <;> simp
  rw [htr]
  show (x + 32768) % 65536 - 32768 = x
  omega

lemma outputLength_same (len : ℕ) (rate : ℚ) (hr : 0 < rate) :
    outputLength len rate rate = (len : ℤ) := by
  unfold outputLength jsRoundZ
  rw [div_self (ne_of_gt hr), div_one]
  refine Int.floor_eq_iff.mpr ⟨?_, ?_⟩
  · push_cast; linarith
  · push_cast; linarith

/-- C5: resampling with equal input and output rates returns the input
sample for sample (inputs range over 16-bit sample values, as in the
source's `Int16Array`). -/
theorem resampleAudioData_same_rate_id (input : List ℤ) (rate : ℚ)
    (hr : 0 < rate) (hrange : ∀ x ∈ input, -32768 ≤ x ∧ x ≤ 32767) :
    resampleAudioData input rate rate = input := by
  have hr1 : rate / rate = 1 := div_self (ne_of_gt hr)
  have hsrc : ∀ i : ℕ, sourceIndex rate rate i = (i : ℚ) := by
    intro i; unfold sourceIndex; rw [hr1, mul_one]
  have hlo : ∀ i : ℕ, lowerIndex rate rate i = (i : ℤ) := by
    intro i; unfold lowerIndex; rw [hsrc i]; exact Int.floor_natCast i
  apply List.ext_getElem
  · rw [resampleAudioData_length_toNat, outputLength_same _ _ hr]
    exact Int.toNat_natCast _
  · intro i hi1 hi2
    unfold resampleAudioData
    simp only [List.getElem_map, List.getElem_range]
    rw [hsrc, hlo]
    have ht : (i : ℚ) - ((i : ℤ) : ℚ) = 0 := by push_cast; ring
    rw [ht]
    have hread : readSample input (i : ℤ) = ((input[i] : ℤ) : ℚ) := by
      unfold readSample
      rw [if_pos (by positivity), Int.toNat_natCast]
      rw [List.getD_eq_getElem input 0 hi2]
    rw [hread]
    ring_nf
    exact toInt16_intCast _ (hrange _ (List.getElem_mem hi2)).1
      (hrange _ (List.getElem_mem hi2)).2

/-- C5 witness at a concrete input. -/
theorem resampleAudioData_same_rate_id_witness :
    (0 : ℚ) < 24000 ∧ (∀ x ∈ [5, -7, 300], -32768 ≤ x ∧ x ≤ 32767)
      ∧ resampleAudioData [5, -7, 300] 24000 24000 = [5, -7, 300] :=
  ⟨by norm_num, by decide,
    resampleAudioData_same_rate_id [5, -7, 300] 24000 (by norm_num) (by decide)⟩

lemma outputLength_nil (inRate outRate : ℚ) :
    outputLength 0 inRate outRate = 0 := by
  unfold outputLength jsRoundZ
  rw [Nat.cast_zero, zero_div, zero_add]
  refine Int.floor_eq_iff.mpr ⟨?_, ?_⟩ <;> norm_num

/-- C6: for positive rates and a non-empty input, both interpolation
neighbors read by each loop iteration are in bounds (the upper neighbor is
clamped to the last valid index), and an empty input yields an empty
output. -/
theorem resampleAudioData_reads_in_bounds (input : List ℤ) (inRate outRate : ℚ)
    (h1 : 0 < inRate) (h2 : 0 < outRate) :
    (∀ i, i < (outputLength input.length inRate outRate).toNat → input ≠ [] →
        0 ≤ lowerIndex inRate outRate i
        ∧ lowerIndex inRate outRate i < (input.length : ℤ)
        ∧ 0 ≤ upperIndex input.length inRate outRate i
        ∧ upperIndex input.length inRate outRate i < (input.length : ℤ))
    ∧ (input = [] → resampleAudioData input inRate outRate = []) := by
  constructor
  · intro i hi hne
    have hlen : 1 ≤ input.length := List.length_pos.mpr hne
    have hlow0 := lowerIndex_nonneg inRate outRate h1.le h2.le i
    have hlowlt := lowerIndex_lt_len input.length inRate outRate h1 h2 hi
    refine ⟨hlow0, hlowlt, ?_, ?_⟩
    · unfold upperIndex
      refine le_min (by omega) (by omega)
    · unfold upperIndex
      refine min_lt_iff.mpr (Or.inr (by omega))
  · intro he
    subst he
    unfold resampleAudioData
    simp [outputLength_nil]

/-- C6 witness at a concrete input. -/
theorem resampleAudioData_reads_in_bounds_witness :
    (0 : ℚ) < 24000 ∧ (0 : ℚ) < 16000 ∧
      ((∀ i, i < (outputLength (List.length [1, 2, 3]) 24000 16000).toNat →
          ([1, 2, 3] : List ℤ) ≠ [] →
          0 ≤ lowerIndex 24000 16000 i
          ∧ lowerIndex 24000 16000 i < ((List.length [1, 2, 3] : ℕ) : ℤ)
          ∧ 0 ≤ upperIndex (List.length [1, 2, 3]) 24000 16000 i
          ∧ upperIndex (List.length [1, 2, 3]) 24000 16000 i
              < ((List.length [1, 2, 3] : ℕ) : ℤ))
        ∧ (([1, 2, 3] : List ℤ) = [] → resampleAudioData [1, 2, 3] 24000 16000 = [])) :=
  ⟨by norm_num, by norm_num,
    resampleAudioData_reads_in_bounds [1, 2, 3] 24000 16000 (by norm_num) (by norm_num)⟩

/-! ### Channel-readiness gate, pending audio buffer and event handlers -/

/-- The `pc` field of the Simli client: an `RTCPeerConnection` as read by
the gate, i.e. its `iceConnectionState` string. -/
structure PeerConnectionState where
  iceConnectionState : String
deriving DecidableEq

/-- The `dc` field of the Simli client: an `RTCDataChannel` as read by the
gate, i.e. its `readyState` string. -/
structure DataChannelState where
  readyState : String
deriving DecidableEq

/-- The transport-relevant state of a `SimliClient`: its `pc` and `dc`
fields, each possibly `null`. `simliClientRef.current` itself may be
`null`, modelled as `Option SimliClientState`. -/
structure SimliClientState where
  pc : Option PeerConnectionState
  dc : Option DataChannelState
deriving DecidableEq

/-- `isSimliDataChannelOpen` (ConsolePage.tsx lines 122-129): `false` when
the client ref is `null`; otherwise
`pc !== null && pc.iceConnectionState === 'connected' && dc !== null && dc.readyState === 'open'`. -/
def isSimliDataChannelOpen (client : Option SimliClientState) : Bool :=
  match client with
  | none => false
  | some c =>
    match c.pc, c.dc with
    | some pc, some dc =>
        pc.iceConnectionState == "connected" && dc.readyState == "open"
    | _, _ => false

/-- `simliAudioBufferRef.current` (the pending audio frames, as raw byte
lists) together with the chronological log of `sendAudioData` calls made
to the Simli client. -/
structure SimliState where
  buffer : List (List ℕ)
  sent : List (List ℕ)
deriving DecidableEq

/-- `new Uint8Array(int16Array.buffer)`: the little-endian byte
serialization of a PCM16 sample list. -/
def toLEBytes (samples : List ℤ) : List ℕ :=
  samples.flatMap (fun v => [(v.emod 65536).toNat % 256, (v.emod 65536).toNat / 256])

/-- The frame built from one incoming audio delta:
`resampleAudioData(new Int16Array(delta.audio), 24000, 16000)` serialized
to bytes. -/
def frameOfDelta (delta : List ℤ) : List ℕ :=
  toLEBytes (resampleAudioData delta 24000 16000)

/-- The audio-delta branch of the `conversation.updated` handler
(lines 426-451). If `simliClientRef.current` is `null` nothing happens.
Otherwise the delta is resampled 24000→16000 and serialized; if
`isSimliDataChannelOpen()` the buffered frames are each sent in order, the
buffer is cleared and the new frame is sent last; otherwise the new frame
is pushed onto the buffer. -/
def onAudioDelta (client : Option SimliClientState) (delta : List ℤ)
    (s : SimliState) : SimliState :=
  match client with
  | none => s
  | some _ =>
    let frame := frameOfDelta delta
    if isSimliDataChannelOpen client then
      { buffer := [], sent := s.sent ++ s.buffer ++ [frame] }
    else
      { buffer := s.buffer ++ [frame], sent := s.sent }

/-- The `conversation.interrupted` handler (lines 417-420):
`simliAudioBufferRef.current = []`, unconditionally. -/
def onConversationInterrupted (s : SimliState) : SimliState :=
  { buffer := [], sent := s.sent }

/-- An event touching the pending-audio state: an audio delta (with the
Simli client state at that instant) or a `conversation.interrupted`
notification. -/
inductive SimliEvent
  | delta (client : Option SimliClientState) (d : List ℤ)
  | interrupted
deriving DecidableEq

def stepEvent (e : SimliEvent) (s : SimliState) : SimliState :=
  match e with
  | .delta client d => onAudioDelta client d s
  | .interrupted => onConversationInterrupted s

def runEvents (es : List SimliEvent) (s : SimliState) : SimliState :=
  es.foldl (fun s e => stepEvent e s) s

/-- C7: the gate is `true` iff the client exists, its peer connection is
non-null and ICE-connected, and its data channel is non-null and open. The
gate is a pure read: it takes no state and returns only a boolean. -/
theorem isSimliDataChannelOpen_iff (client : Option SimliClientState) :
    isSimliDataChannelOpen client = true
      ↔ ∃ c pcs dcs, client = some c ∧ c.pc = some pcs ∧ c.dc = some dcs
          ∧ pcs.iceConnectionState = "connected" ∧ dcs.readyState = "open" := by
  cases client with
  | none => simp [isSimliDataChannelOpen]
  | some c =>
    cases hpc : c.pc with
    | none => simp [isSimliDataChannelOpen, hpc]
    | some pcs =>
      cases hdc : c.dc with
      | none => simp [isSimliDataChannelOpen, hpc, hdc]
      | some dcs => simp [isSimliDataChannelOpen, hpc, hdc]

/-- C10: a delta arriving while `simliClientRef.current` is `null` leaves
the state untouched — nothing is sent and the buffer is unchanged. -/
theorem onAudioDelta_null_client (delta : List ℤ) (s : SimliState) :
    onAudioDelta none delta s = s := rfl

lemma onAudioDelta_closed (client : Option SimliClientState)
    (hsome : client.isSome = true)
    (hclosed : isSimliDataChannelOpen client = false)
    (d : List ℤ) (s : SimliState) :
    onAudioDelta client d s
      = { buffer := s.buffer ++ [frameOfDelta d], sent := s.sent } := by
  cases client with
  | none => simp at hsome
  | some c => simp [onAudioDelta, hclosed]

lemma onAudioDelta_open (client : Option SimliClientState)
    (hopen : isSimliDataChannelOpen client = true)
    (d : List ℤ) (s : SimliState) :
    onAudioDelta client d s
      = { buffer := [], sent := s.sent ++ s.buffer ++ [frameOfDelta d] } := by
  cases client with
  | none => simp [isSimliDataChannelOpen] at hopen
  | some c => simp [onAudioDelta, hopen]

lemma foldl_closed_deltas (client : Option SimliClientState)
    (hsome : client.isSome = true)
    (hclosed : isSimliDataChannelOpen client = false)
    (ds : List (List ℤ)) (s : SimliState) :
    (ds.foldl (fun s dd => onAudioDelta client dd s) s).buffer
        = s.buffer ++ ds.map frameOfDelta
      ∧ (ds.foldl (fun s dd => onAudioDelta client dd s) s).sent = s.sent := by
  induction ds generalizing s with
  | nil => simp
  | cons d ds ih =>
    simp only [List.foldl_cons, List.map_cons]
    rw [onAudioDelta_closed client hsome hclosed d s]
    obtain ⟨hb, hs⟩ := ih { buffer := s.buffer ++ [frameOfDelta d], sent := s.sent }
    refine ⟨?_, hs⟩
    rw [hb]
    simp

/-- C2: frames arriving while the gate is closed are only appended to the
buffer (none is sent); the first delta arriving with the gate open sends
every buffered frame once, in insertion order, then the new frame, and the
buffer ends empty. -/
theorem buffered_frames_drain_in_order (cClosed cOpen : Option SimliClientState)
    (ds : List (List ℤ)) (d : List ℤ) (s0 : SimliState)
    (hsome : cClosed.isSome = true)
    (hclosed : isSimliDataChannelOpen cClosed = false)
    (hopen : isSimliDataChannelOpen cOpen = true) :
    ((ds.foldl (fun s dd => onAudioDelta cClosed dd s) s0).buffer
        = s0.buffer ++ ds.map frameOfDelta
      ∧ (ds.foldl (fun s dd => onAudioDelta cClosed dd s) s0).sent = s0.sent)
    ∧ (onAudioDelta cOpen d (ds.foldl (fun s dd => onAudioDelta cClosed dd s) s0)).sent
        = s0.sent ++ (s0.buffer ++ ds.map frameOfDelta) ++ [frameOfDelta d]
    ∧ (onAudioDelta cOpen d (ds.foldl (fun s dd => onAudioDelta cClosed dd s) s0)).buffer
        = [] := by
  obtain ⟨hb, hs⟩ := foldl_closed_deltas cClosed hsome hclosed ds s0
  refine ⟨⟨hb, hs⟩, ?_, ?_⟩
  · rw [onAudioDelta_open cOpen hopen]
    rw [hb, hs]
  · rw [onAudioDelta_open cOpen hopen]

/-- C2 witness at a concrete closed/open client pair and concrete deltas. -/
theorem buffered_frames_drain_in_order_witness :
    (Option.isSome (some ⟨some ⟨"connected"⟩, none⟩ : Option SimliClientState) = true)
    ∧ isSimliDataChannelOpen (some ⟨some ⟨"connected"⟩, none⟩) = false
    ∧ isSimliDataChannelOpen (some ⟨some ⟨"connected"⟩, some ⟨"open"⟩⟩) = true
    ∧ ((([[1, 2, 3]].foldl
          (fun s dd => onAudioDelta (some ⟨some ⟨"connected"⟩, none⟩) dd s)
          ⟨[], []⟩).buffer
          = ([] : List (List ℕ)) ++ [[1, 2, 3]].map frameOfDelta
        ∧ ([[1, 2, 3]].foldl
            (fun s dd => onAudioDelta (some ⟨some ⟨"connected"⟩, none⟩) dd s)
            ⟨[], []⟩).sent = [])
      ∧ (onAudioDelta (some ⟨some ⟨"connected"⟩, some ⟨"open"⟩⟩) [4, 5, 6]
          ([[1, 2, 3]].foldl
            (fun s dd => onAudioDelta (some ⟨some ⟨"connected"⟩, none⟩) dd s)
            ⟨[], []⟩)).sent
          = [] ++ (([] : List (List ℕ)) ++ [[1, 2, 3]].map frameOfDelta)
              ++ [frameOfDelta [4, 5, 6]]
      ∧ (onAudioDelta (some ⟨some ⟨"connected"⟩, some ⟨"open"⟩⟩) [4, 5, 6]
          ([[1, 2, 3]].foldl
            (fun s dd => onAudioDelta (some ⟨some ⟨"connected"⟩, none⟩) dd s)
            ⟨[], []⟩)).buffer = []) :=
  ⟨rfl, rfl, rfl,
    buffered_frames_drain_in_order (some ⟨some ⟨"connected"⟩, none⟩)
      (some ⟨some ⟨"connected"⟩, some ⟨"open"⟩⟩) [[1, 2, 3]] [4, 5, 6] ⟨[], []⟩
      rfl rfl rfl⟩

lemma runEvents_nil (s : SimliState) : runEvents [] s = s := rfl

lemma runEvents_cons (e : SimliEvent) (es : List SimliEvent) (s : SimliState) :
    runEvents (e :: es) s = runEvents es (stepEvent e s) := rfl

/-- Every step either leaves the state alone, appends the new frame to the
buffer, or sends the whole buffer followed by the new frame. -/
lemma onAudioDelta_shape (client : Option SimliClientState) (d : List ℤ)
    (s : SimliState) :
    onAudioDelta client d s = s
    ∨ ((onAudioDelta client d s).sent = s.sent
        ∧ (onAudioDelta client d s).buffer = s.buffer ++ [frameOfDelta d])
    ∨ ((onAudioDelta client d s).sent = s.sent ++ s.buffer ++ [frameOfDelta d]
        ∧ (onAudioDelta client d s).buffer = []) := by
  cases client with
  | none => exact Or.inl rfl
  | some c =>
    by_cases h : isSimliDataChannelOpen (some c) = true
    · exact Or.inr (Or.inr (by rw [onAudioDelta_open _ h]; exact ⟨rfl, rfl⟩))
    · rw [Bool.not_eq_true] at h
      exact Or.inr (Or.inl (by rw [onAudioDelta_closed (some c) rfl h]; exact ⟨rfl, rfl⟩))

/-- Provenance invariant: running any event sequence only ever appends to
the send log, and every appended frame — and every frame left in the
buffer — either was already buffered at the start or is the frame of a
delta of the sequence. -/
lemma runEvents_sent_provenance (es : List SimliEvent) (s : SimliState) :
    ∃ t, (runEvents es s).sent = s.sent ++ t
      ∧ (∀ f ∈ t, f ∈ s.buffer
          ∨ ∃ c d, SimliEvent.delta c d ∈ es ∧ f = frameOfDelta d)
      ∧ (∀ f ∈ (runEvents es s).buffer, f ∈ s.buffer
          ∨ ∃ c d, SimliEvent.delta c d ∈ es ∧ f = frameOfDelta d) := by
  induction es generalizing s with
  | nil =>
    refine ⟨[], by simp [runEvents_nil], by simp, ?_⟩
    intro f hf
    exact Or.inl (by simpa [runEvents_nil] using hf)
  | cons e es ih =>
    rw [runEvents_cons]
    obtain ⟨t, ht, htmem, hbmem⟩ := ih (stepEvent e s)
    cases e with
    | interrupted =>
      refine ⟨t, ?_, ?_, ?_⟩
      · simpa [stepEvent, onConversationInterrupted] using ht
      · intro f hf
        rcases htmem f hf with h | ⟨c, d, hmem, hfd⟩
        · exact absurd h (by simp [stepEvent, onConversationInterrupted])
        · exact Or.inr ⟨c, d, List.mem_cons_of_mem _ hmem, hfd⟩
      · intro f hf
        rcases hbmem f hf with h | ⟨c, d, hmem, hfd⟩
        · exact absurd h (by simp [stepEvent, onConversationInterrupted])
        · exact Or.inr ⟨c, d, List.mem_cons_of_mem _ hmem, hfd⟩
    | delta c d =>
      have hstep : stepEvent (SimliEvent.delta c d) s = onAudioDelta c d s := rfl
      have hlift : ∀ f, (f ∈ s.buffer
            ∨ ∃ c2 d2, SimliEvent.delta c2 d2 ∈ es ∧ f = frameOfDelta d2) →
          f ∈ s.buffer
            ∨ ∃ c2 d2, SimliEvent.delta c2 d2 ∈ SimliEvent.delta c d :: es
                ∧ f = frameOfDelta d2 := by
        rintro f (h | ⟨c2, d2, hmem, hfd⟩)
        · exact Or.inl h
        · exact Or.inr ⟨c2, d2, List.mem_cons_of_mem _ hmem, hfd⟩
      have hnew : ∀ f, (f ∈ s.buffer ++ [frameOfDelta d]) →
          f ∈ s.buffer
            ∨ ∃ c2 d2, SimliEvent.delta c2 d2 ∈ SimliEvent.delta c d :: es
                ∧ f = frameOfDelta d2 := by
        intro f hf
        rcases List.mem_append.mp hf with h | h
        · exact Or.inl h
        · exact Or.inr ⟨c, d, List.mem_cons_self _ _, by simpa using h⟩
      rw [hstep] at ht htmem hbmem ⊢
      rcases onAudioDelta_shape c d s with hid | ⟨hsent, hbuf⟩ | ⟨hsent, hbuf⟩
      · rw [hid] at ht htmem hbmem ⊢
        exact ⟨t, ht, fun f hf => hlift f (htmem f hf),
          fun f hf => hlift f (hbmem f hf)⟩
      · rw [hsent] at ht
        rw [hbuf] at htmem hbmem
        refine ⟨t, ht, ?_, ?_⟩
        · intro f hf
          rcases htmem f hf with h | h
          · exact hnew f h
          · exact hlift f (Or.inr h)
        · intro f hf
          rcases hbmem f hf with h | h
          · exact hnew f h
          · exact hlift f (Or.inr h)
      · rw [hsent] at ht
        rw [hbuf] at htmem hbmem
        refine ⟨s.buffer ++ [frameOfDelta d] ++ t, by rw [ht]; simp, ?_, ?_⟩
        · intro f hf
          rcases List.mem_append.mp hf with h | h
          · exact hnew f h
          · rcases htmem f h with h2 | h2
            · exact absurd h2 (List.not_mem_nil f)
            · exact hlift f (Or.inr h2)
        · intro f hf
          rcases hbmem f hf with h2 | h2
          · exact absurd h2 (List.not_mem_nil f)
          · exact hlift f (Or.inr h2)

/-- C4: handling `conversation.interrupted` empties the pending buffer,
and in every later state every newly sent frame comes from a delta
processed after the interruption — no frame buffered before it is ever
sent afterwards. -/
theorem interruption_discards_buffered_frames (s : SimliState)
    (es : List SimliEvent) :
    (onConversationInterrupted s).buffer = []
    ∧ ∃ t, (runEvents es (onConversationInterrupted s)).sent = s.sent ++ t
        ∧ ∀ f ∈ t, ∃ c d, SimliEvent.delta c d ∈ es ∧ f = frameOfDelta d := by
  refine ⟨rfl, ?_⟩
  obtain ⟨t, ht, htmem, -⟩ := runEvents_sent_provenance es (onConversationInterrupted s)
  refine ⟨t, ht, ?_⟩
  intro f hf
  rcases htmem f hf with h | h
  · exact absurd h (by simp [onConversationInterrupted])
  · exact h

/-! ### Turn controller: startRecording and connectConversation -/

/-- The value returned by `wavStreamPlayer.interrupt()` when a track was
playing: the id of the truncated track and how many samples of it were
heard. -/
structure TrackSampleOffset where
  trackId : String
  offset : ℤ
deriving DecidableEq

/-- An observable action of `startRecording`. -/
inductive TurnAction
  | interruptPlayback
  | cancelResponse (trackId : String) (offset : ℤ)
  | record
deriving DecidableEq

/-- `startRecording` (ConsolePage.tsx lines 247-273) as the chronological
list of its collaborator calls: it interrupts the stream player; if the
interrupt result is non-null with a truthy (non-empty) `trackId` it calls
`client.cancelResponse(trackId, offset)` with exactly that pair; then it
starts recording. -/
def startRecording (interruptResult : Option TrackSampleOffset) : List TurnAction :=
  [TurnAction.interruptPlayback]
    ++ (match interruptResult with
        | some t =>
          if t.trackId = "" then []
          else [TurnAction.cancelResponse t.trackId t.offset]
        | none => [])
    ++ [TurnAction.record]

/-- C3: pressing talk during active playback (the interrupt call returns a
track with a non-empty id) issues exactly one `cancelResponse`, carrying
exactly the pair the interrupt returned, between the interrupt and the
start of capture. -/
theorem startRecording_cancels_with_interrupt_pair (t : TrackSampleOffset)
    (h : t.trackId ≠ "") :
    startRecording (some t)
      = [TurnAction.interruptPlayback,
         TurnAction.cancelResponse t.trackId t.offset,
         TurnAction.record] := by
  simp [startRecording, h]

/-- C3 witness: interrupt returning `{trackId: "t1", offset: 240}` leads to
`cancelResponse("t1", 240)`. -/
theorem startRecording_cancels_with_interrupt_pair_witness :
    (TrackSampleOffset.mk "t1" 240).trackId ≠ ""
    ∧ startRecording (some (TrackSampleOffset.mk "t1" 240))
        = [TurnAction.interruptPlayback,
           TurnAction.cancelResponse "t1" 240,
           TurnAction.record] :=
  ⟨by decide, startRecording_cancels_with_interrupt_pair ⟨"t1", 240⟩ (by decide)⟩

/-- An observable action of `connectConversation`. -/
inductive ConnectAction
  | simliStart
  | simliSendInitial
  | clientConnect
  | recorderBegin
  | playerConnect
  | queryTurnDetection
  | startCapture
deriving DecidableEq

/-- `connectConversation` (lines 131-188) as the chronological list of its
collaborator calls. `audioCtxOk` is whether AudioContext
initialization/resume succeeded (on failure the function returns early);
`simliPresent` is whether `simliClientRef.current` is non-null;
`turnDetection` is what `client.getTurnDetectionType()` reports when
queried. The query happens once, after connecting, and recording starts
there iff the reported mode is `'server_vad'`. -/
def connectConversation (audioCtxOk simliPresent : Bool)
    (turnDetection : String) : List ConnectAction :=
  if !audioCtxOk then []
  else
    (if simliPresent then
        [ConnectAction.simliStart, ConnectAction.simliSendInitial]
      else [])
      ++ [ConnectAction.clientConnect, ConnectAction.recorderBegin,
          ConnectAction.playerConnect, ConnectAction.queryTurnDetection]
      ++ (if turnDetection = "server_vad" then [ConnectAction.startCapture] else [])

/-- C8: a successful `connectConversation` queries the turn-detection mode
exactly once, and starts microphone capture within the call iff the
session reports `'server_vad'`. -/
theorem connectConversation_queries_once_and_vad_capture
    (simliPresent : Bool) (turnDetection : String) :
    (connectConversation true simliPresent turnDetection).count
        ConnectAction.queryTurnDetection = 1
    ∧ (ConnectAction.startCapture ∈ connectConversation true simliPresent turnDetection
        ↔ turnDetection = "server_vad") := by
  by_cases h : turnDetection = "server_vad" <;>
    cases simliPresent <;>
    simp [connectConversation, h, List.count_cons, List.count_append]

/-! ### Conversation projection: the completed-item decode step -/

/-- The playable resource produced by `WavRecorder.decode`. -/
structure WavFile where
  url : String
deriving DecidableEq

/-- The `formatted` fields of a conversation item that the decode step can
see: `text`, `transcript`, the raw PCM16 `audio` payload, and the attached
playable `file`. -/
structure FormattedItem where
  text : Option String
  transcript : Option String
  audio : List ℤ
  file : Option WavFile
deriving DecidableEq

/-- A conversation item as read by the `conversation.updated` handler. -/
structure ConversationItem where
  id : String
  status : String
  formatted : FormattedItem
deriving DecidableEq

/-- The completed-item decode step of the `conversation.updated` handler
(lines 453-499): when `item.status === 'completed'` and
`item.formatted.audio?.length` is truthy, decode the payload and attach
the result as `item.formatted.file`; a decode failure is caught and
leaves the item as it was. `decode` models the external
`WavRecorder.decode` collaborator, `none` standing for a decode error. -/
def processCompletedItem (decode : List ℤ → Option WavFile)
    (item : ConversationItem) : ConversationItem :=
  if item.status = "completed" ∧ item.formatted.audio.length ≠ 0 then
    match decode item.formatted.audio with
    | some wavFile =>
      { item with formatted := { item.formatted with file := some wavFile } }
    | none => item
  else item

/-- C9: the decode step never changes an item's `text`, `transcript`,
`id`, `status` or `audio` — only `formatted.file` — and when decoding
fails the item is returned entirely unchanged, with no file attached. -/
theorem processCompletedItem_frame_effect (decode : List ℤ → Option WavFile)
    (item : ConversationItem) :
    (processCompletedItem decode item).formatted.text = item.formatted.text
    ∧ (processCompletedItem decode item).formatted.transcript
        = item.formatted.transcript
    ∧ (processCompletedItem decode item).id = item.id
    ∧ (processCompletedItem decode item).status = item.status
    ∧ (processCompletedItem decode item).formatted.audio = item.formatted.audio
    ∧ (decode item.formatted.audio = none →
        processCompletedItem decode item = item) := by
  unfold processCompletedItem
  by_cases h : item.status = "completed" ∧ item.formatted.audio.length ≠ 0
  · rw [if_pos h]
    cases hd : decode item.formatted.audio with
    | none => simp
    | some wavFile => simp [hd]
  · rw [if_neg h]
    simp

end SimliConsole
